import Mathlib

/-!
Verification of the whisper JNI bridge (`whisper_jni.cpp`) of
GP_VisitBuddy: a shallow embedding of the source-agnostic model loader
callbacks, the asset initialization path, and the `fullTranscribe`
request preparer, with theorems about the spec's claims.

Machine integers are modelled explicitly: `jint` is a signed 32-bit
value carried as an `Int` in `[-2^31, 2^31)`, `size_t` is a natural
number reduced modulo `2^64` (the arm64 ABI width), and the C cast
semantics between them (two's complement) are spelled out.  Float
samples and thresholds are modelled as rationals, the exact values the
source literals denote.
-/

namespace WhisperJNI

/-- Two's-complement conversion of a `jint` value (an `Int` in
`[-2^31, 2^31)`) to a `size_t` value, as in the cast
`(size_t)avail_size` of `input_stream_read`. -/
def castJintToSizeT (x : Int) : Nat :=
  (x % (2 ^ 64 : Int)).toNat

/-- Two's-complement conversion of a `size_t` value to a `jint` value,
as in the cast `(jint)read_size` of `input_stream_read`. -/
def castSizeTToJint (n : Nat) : Int :=
  if n % 2 ^ 32 < 2 ^ 31 then ((n % 2 ^ 32 : Nat) : Int)
  else ((n % 2 ^ 32 : Nat) : Int) - 2 ^ 32

/-- Result of one call to the Stream-origin read callback
`input_stream_read`: the `jint` local `size_to_copy`, the `size_t`
value the callback returns, the new stream-context offset, and whether
the partial-read log line fired. -/
structure StreamReadResult where
  sizeToCopy : Int
  returnValue : Nat
  newOffset : Nat
  partialLogged : Bool
  deriving Repr, DecidableEq

/-- The `jint` local `size_to_copy` of `input_stream_read`
(whisper_jni.cpp:42):
`size_to_copy = read_size < (size_t)avail_size ? (jint)read_size : avail_size`,
where `readSize` is the `size_t` argument `read_size` and `availSize`
is the `jint` the Java stream's `available()` method reported at the
start of the call. -/
def size_to_copy (readSize : Nat) (availSize : Int) : Int :=
  if readSize < castJintToSizeT availSize then castSizeTToJint readSize
  else availSize

/-- Embedding of the rest of `input_stream_read`: copies
`size_to_copy` bytes out of the freshly read Java array, advances the
offset by `size_to_copy` and returns `size_to_copy` (converted back to
`size_t`); `n_read` is used only in the partial-read log line. -/
def input_stream_read (offset readSize : Nat) (availSize nRead : Int) :
    StreamReadResult :=
  { sizeToCopy := size_to_copy readSize availSize
    returnValue := castJintToSizeT (size_to_copy readSize availSize)
    newOffset := (offset + castJintToSizeT (size_to_copy readSize availSize)) % 2 ^ 64
    partialLogged := size_to_copy readSize availSize ≠ castSizeTToJint readSize
      ∨ size_to_copy readSize availSize ≠ nRead }

/-- State of the Stream origin as seen by the C callbacks: the value
the Java `available()` method currently reports, and the context
offset. -/
structure StreamState where
  available : Int
  offset : Nat
  deriving Repr, DecidableEq

/-- Embedding of `input_stream_eof` (whisper_jni.cpp:60-64): queries
`available()` and returns whether it reported `≤ 0`; the state is
untouched (the call consumes no data). -/
def input_stream_eof (s : StreamState) : Bool × StreamState :=
  (decide (s.available ≤ 0), s)

/-- Embedding of `input_stream_close` (whisper_jni.cpp:66-68): a no-op. -/
def input_stream_close (s : StreamState) : StreamState := s

/-- Embedding of `asset_is_eof` (whisper_jni.cpp:78-80): true exactly
when `AAsset_getRemainingLength64` reports `≤ 0`; the remaining length
is untouched. -/
def asset_is_eof (remaining : Int) : Bool × Int :=
  (decide (remaining ≤ 0), remaining)

/-- `n` successive calls to the Stream-origin eof callback with no
intervening read: the list of values returned and the final state. -/
def repeatStreamEof : Nat → StreamState → List Bool × StreamState
  | 0, s => ([], s)
  | n + 1, s =>
      let r := input_stream_eof s
      let rest := repeatStreamEof n r.2
      (r.1 :: rest.1, rest.2)

/-- Environment of one `initContextFromAsset` call: whether
`AAssetManager_fromJava` yields a manager, whether
`AAssetManager_open` yields an asset, and the `whisper_context`
pointer the external engine entry point `whisper_init_with_params`
would return over the built loader (`none` models `nullptr`). -/
structure AssetEnv where
  managerOk : Bool
  assetOk : Bool
  engineInit : Option Int
  deriving Repr, DecidableEq

/-- Result of the asset initialization path: the context pointer
produced (`none` = `nullptr`) and whether the engine's
initialize-from-loader entry point was invoked. -/
structure AssetInitResult where
  context : Option Int
  engineInvoked : Bool
  deriving Repr, DecidableEq

/-- Embedding of `whisper_init_from_asset` (whisper_jni.cpp:86-112):
returns `nullptr` without touching the engine when the asset manager
cannot be obtained or the asset cannot be opened; otherwise builds the
loader over the asset and calls `whisper_init_with_params`. -/
def whisper_init_from_asset (env : AssetEnv) : AssetInitResult :=
  if env.managerOk = false then ⟨none, false⟩
  else if env.assetOk = false then ⟨none, false⟩
  else ⟨env.engineInit, true⟩

/-- The `jlong` handed back across JNI for a context pointer:
`nullptr` becomes the null handle sentinel `0`. -/
def jlongOfContext : Option Int → Int
  | none => 0
  | some p => p

/-- Embedding of the JNI entry `initContextFromAsset`
(whisper_jni.cpp:149-159): runs `whisper_init_from_asset` and casts
the resulting pointer to `jlong`.  The pair is the returned handle and
whether the engine initializer ran. -/
def initContextFromAsset (env : AssetEnv) : Int × Bool :=
  let r := whisper_init_from_asset env
  (jlongOfContext r.context, r.engineInvoked)

/-- The parameter block `whisper_full_params`, restricted to the
fields the bridge touches or the spec names.  Float fields are
rationals; `strategy` is the sampling-strategy tag (0 = greedy). -/
structure WhisperFullParams where
  strategy : Nat
  print_realtime : Bool
  print_progress : Bool
  print_timestamps : Bool
  print_special : Bool
  translate : Bool
  language : String
  n_threads : Int
  offset_ms : Int
  no_context : Bool
  single_segment : Bool
  entropy_thold : ℚ
  logprob_thold : ℚ
  no_speech_thold : ℚ
  deriving Repr, DecidableEq

/-- Modelled from the spec: the value
`whisper_full_default_params(WHISPER_SAMPLING_GREEDY)` of the external
whisper.cpp engine, which is not part of this repository.  The three
decode thresholds follow the spec's quoted engine defaults (entropy
2.4, log-probability -1.0, no-speech 0.6); the bridge overrides every
field the claims mention, so nothing below depends on these values. -/
def defaultGreedyParams : WhisperFullParams :=
  { strategy := 0
    print_realtime := false
    print_progress := true
    print_timestamps := true
    print_special := false
    translate := false
    language := "en"
    n_threads := 4
    offset_ms := 0
    no_context := true
    single_segment := false
    entropy_thold := 2.4
    logprob_thold := -1.0
    no_speech_thold := 0.6 }

/-- The parameter assignments of `fullTranscribe`
(whisper_jni.cpp:227-242), applied to the engine-supplied defaults
`d`. -/
def buildParams (d : WhisperFullParams) (numThreads : Int) :
    WhisperFullParams :=
  { d with
    print_realtime := false
    print_progress := false
    print_timestamps := true
    print_special := false
    translate := false
    language := "en"
    n_threads := numThreads
    offset_ms := 0
    no_context := true
    single_segment := false
    entropy_thold := 2.8
    logprob_thold := -1.5
    no_speech_thold := 0.3 }

/-- The accumulator of the diagnostic loop of `fullTranscribe`
(whisper_jni.cpp:205-213): running minimum, running maximum, running
sum of absolute values, count of non-zero samples. -/
structure AudioDiag where
  min_val : ℚ
  max_val : ℚ
  sum_abs : ℚ
  non_zero : Nat
  deriving Repr, DecidableEq

/-- One iteration of the diagnostic loop body over sample `v`. -/
def diagStep (d : AudioDiag) (v : ℚ) : AudioDiag :=
  { min_val := if v < d.min_val then v else d.min_val
    max_val := if d.max_val < v then v else d.max_val
    sum_abs := d.sum_abs + (if 0 ≤ v then v else -v)
    non_zero := d.non_zero + (if v ≠ 0 then 1 else 0) }

/-- The diagnostic loop of `fullTranscribe`: all four accumulators
start at zero. -/
def audioDiagnostics (audio : List ℚ) : AudioDiag :=
  audio.foldl diagStep ⟨0, 0, 0, 0⟩

/-- JNI release modes for `ReleaseFloatArrayElements`: `JNI_ABORT`
discards the native copy without writing it back to the caller's
array; `commit` (mode 0) would write it back. -/
inductive ReleaseMode where
  | abort
  | commit
  deriving Repr, DecidableEq

/-- Semantics of `ReleaseFloatArrayElements`: the caller's array after
the release, given its value at pin time and the native copy at
release time. -/
def releaseFloatArrayElements (callerArr nativeCopy : List ℚ)
    (mode : ReleaseMode) : List ℚ :=
  match mode with
  | ReleaseMode.abort => callerArr
  | ReleaseMode.commit => nativeCopy

/-- Observable trace of one `fullTranscribe` call: the diagnostic
accumulators, the logged average absolute amplitude, whether the
likely-silent warning fired, the parameter set passed to
`whisper_full`, whether `whisper_full` was invoked, and the caller's
audio array after the call returns. -/
structure TranscribeTrace where
  diag : AudioDiag
  avgAbs : ℚ
  silentWarning : Bool
  params : WhisperFullParams
  engineInvoked : Bool
  callerAudio : List ℚ
  deriving Repr, DecidableEq

/-- Embedding of the JNI entry `fullTranscribe`
(whisper_jni.cpp:195-261).  `d` is the engine's default parameter
block.  The native copy obtained from `GetFloatArrayElements` holds
the caller's sample values; the loop only reads it; the
likely-silent warning fires when `avg_abs < 0.001`; `whisper_full` is
invoked unconditionally; the copy is released with `JNI_ABORT`. -/
def fullTranscribe (d : WhisperFullParams) (numThreads : Int)
    (audio : List ℚ) : TranscribeTrace :=
  let nativeCopy := audio
  let diag := audioDiagnostics nativeCopy
  let avg := diag.sum_abs / (nativeCopy.length : ℚ)
  { diag := diag
    avgAbs := avg
    silentWarning := decide (avg < 1 / 1000)
    params := buildParams d numThreads
    engineInvoked := true
    callerAudio := releaseFloatArrayElements audio nativeCopy ReleaseMode.abort }

/-- Mathematical mean absolute amplitude of a buffer (spec side). -/
def meanAbsAmplitude (audio : List ℚ) : ℚ :=
  (audio.map (fun v => |v|)).sum / (audio.length : ℚ)

/-- Mathematical fraction of non-zero samples of a buffer (spec side). -/
def nonZeroFraction (audio : List ℚ) : ℚ :=
  ((audio.filter (fun v => v ≠ 0)).length : ℚ) / (audio.length : ℚ)

/-! ## Arithmetic facts about the machine-integer casts -/

lemma castJintToSizeT_nonneg (x : Int) (h0 : 0 ≤ x) (h1 : x < 2 ^ 64) :
    castJintToSizeT x = x.toNat := by
  unfold castJintToSizeT
  omega

lemma castJintToSizeT_neg (x : Int) (h0 : -2 ^ 31 ≤ x) (h1 : x < 0) :
    castJintToSizeT x = (x + 2 ^ 64).toNat := by
  unfold castJintToSizeT
  omega

lemma castSizeTToJint_small (n : Nat) (h : n < 2 ^ 31) :
    castSizeTToJint n = (n : Int) := by
  unfold castSizeTToJint
  split <;> omega

/-- Over a non-negative `available()` report (the Java `InputStream`
contract), the `size_to_copy` comparison is an honest clamp. -/
lemma size_to_copy_of_nonneg_avail (readSize : Nat) (availSize : Int)
    (h0 : 0 ≤ availSize) (h1 : availSize < 2 ^ 31) :
    size_to_copy readSize availSize = ((min readSize availSize.toNat : Nat) : Int) := by
  unfold size_to_copy
  rw [castJintToSizeT_nonneg availSize h0 (by omega)]
  by_cases hlt : readSize < availSize.toNat
  · rw [if_pos hlt, castSizeTToJint_small readSize (by omega)]
    omega
  · rw [if_neg hlt]
    omega

lemma returnValue_of_nonneg_avail (offset readSize : Nat) (availSize nRead : Int)
    (h0 : 0 ≤ availSize) (h1 : availSize < 2 ^ 31) :
    (input_stream_read offset readSize availSize nRead).returnValue
      = min readSize availSize.toNat := by
  show castJintToSizeT (size_to_copy readSize availSize) = min readSize availSize.toNat
  rw [size_to_copy_of_nonneg_avail readSize availSize h0 h1,
    castJintToSizeT_nonneg _ (by omega) (by omega)]
  omega

/-! ## Claims about the Stream-origin read callback -/

/-- C1 (amended): whenever the Java stream's `available()` method
reports a non-negative value, the Stream-origin read callback copies
exactly `min(requested_size, available)` bytes — in particular never
more than `available()` reported at the start of the call — for every
requested size, including zero and sizes larger than available. -/
theorem input_stream_read_clamped (offset readSize : Nat) (availSize nRead : Int)
    (h0 : 0 ≤ availSize) (h1 : availSize < 2 ^ 31) :
    (input_stream_read offset readSize availSize nRead).returnValue
        = min readSize availSize.toNat
    ∧ ((input_stream_read offset readSize availSize nRead).returnValue : Int)
        ≤ availSize := by
  have h := returnValue_of_nonneg_avail offset readSize availSize nRead h0 h1
  refine ⟨h, ?_⟩
  rw [h]
  omega

/-- Witness for C1: requested 7 bytes with 3 available copies
min 7 3 = 3 bytes, not more than the 3 available. -/
theorem input_stream_read_clamped_witness :
    (0 : Int) ≤ 3 ∧ (3 : Int) < 2 ^ 31
    ∧ ((input_stream_read 0 7 3 3).returnValue = min 7 (3 : Int).toNat
        ∧ ((input_stream_read 0 7 3 3).returnValue : Int) ≤ 3) :=
  ⟨by decide, by decide, input_stream_read_clamped 0 7 3 3 (by decide) (by decide)⟩

/-- Counterexample to C1 as stated: when `available()` reports `-1`
and one byte is requested, the callback copies 1 byte, which is not at
most the reported value `-1`; the clamp invariant fails for negative
`available()` reports. -/
theorem input_stream_read_clamped_counterexample :
    (input_stream_read 0 1 (-1) 0).returnValue = 1
    ∧ ¬ (((input_stream_read 0 1 (-1) 0).returnValue : Int) ≤ -1) := by
  refine ⟨by decide, ?_⟩
  intro h
  revert h
  decide

/-- C9: whenever `available()` reports a non-negative value, the
return value of the Stream-origin read callback and the advance of the
stream offset both equal the clamped size `min(requested_size,
available)`, whatever byte count `nRead` the underlying Java `read`
actually delivered: a short delivery is only logged, and the returned
byte count can exceed the bytes actually obtained from the stream. -/
theorem input_stream_read_reports_clamped_size (offset readSize : Nat)
    (availSize nRead : Int) (h0 : 0 ≤ availSize) (h1 : availSize < 2 ^ 31) :
    (input_stream_read offset readSize availSize nRead).returnValue
        = min readSize availSize.toNat
    ∧ (input_stream_read offset readSize availSize nRead).newOffset
        = (offset + min readSize availSize.toNat) % 2 ^ 64 := by
  have h := returnValue_of_nonneg_avail offset readSize availSize nRead h0 h1
  refine ⟨h, ?_⟩
  show (offset + castJintToSizeT (size_to_copy readSize availSize)) % 2 ^ 64 = _
  have h2 : castJintToSizeT (size_to_copy readSize availSize)
      = min readSize availSize.toNat := h
  rw [h2]

/-- Witness for C9: requested 10 bytes, 4 available, the Java `read`
delivered only 2; the callback still returns 4 and advances the offset
by 4. -/
theorem input_stream_read_reports_clamped_size_witness :
    (0 : Int) ≤ 4 ∧ (4 : Int) < 2 ^ 31
    ∧ ((input_stream_read 0 10 4 2).returnValue = min 10 (4 : Int).toNat
        ∧ (input_stream_read 0 10 4 2).newOffset = (0 + min 10 (4 : Int).toNat) % 2 ^ 64) :=
  ⟨by decide, by decide,
    input_stream_read_reports_clamped_size 0 10 4 2 (by decide) (by decide)⟩

/-- C10 (amended): when `available()` reports a strictly negative
value and the requested size is positive and representable as a
`jint` (below `2^31`), no clamping occurs: the negative `jint` is
converted to a huge `size_t` (its value modulo `2^64`), which exceeds
the request, so `size_to_copy` and the returned byte count are the
full requested size. -/
theorem input_stream_read_negative_avail (offset readSize : Nat)
    (availSize nRead : Int) (hr0 : 0 < readSize) (hr1 : readSize < 2 ^ 31)
    (h0 : -2 ^ 31 ≤ availSize) (h1 : availSize < 0) :
    (input_stream_read offset readSize availSize nRead).sizeToCopy
        = (readSize : Int)
    ∧ (input_stream_read offset readSize availSize nRead).returnValue
        = readSize := by
  have hcast : castJintToSizeT availSize = (availSize + 2 ^ 64).toNat :=
    castJintToSizeT_neg availSize h0 h1
  have hsz : size_to_copy readSize availSize = (readSize : Int) := by
    unfold size_to_copy
    rw [hcast, if_pos (by omega), castSizeTToJint_small readSize hr1]
  refine ⟨hsz, ?_⟩
  show castJintToSizeT (size_to_copy readSize availSize) = readSize
  rw [hsz, castJintToSizeT_nonneg _ (by omega) (by omega)]
  omega

/-- Witness for C10: requested 5 bytes with `available()` reporting
`-3`: the callback attempts the full 5-byte copy. -/
theorem input_stream_read_negative_avail_witness :
    (0 : Nat) < 5 ∧ (5 : Nat) < 2 ^ 31 ∧ (-2 ^ 31 : Int) ≤ -3 ∧ (-3 : Int) < 0
    ∧ ((input_stream_read 0 5 (-3) 0).sizeToCopy = (5 : Int)
        ∧ (input_stream_read 0 5 (-3) 0).returnValue = 5) :=
  ⟨by decide, by decide, by decide, by decide,
    input_stream_read_negative_avail 0 5 (-3) 0 (by decide) (by decide) (by decide)
      (by decide)⟩

/-- Counterexample to C10 as stated for requested sizes at or above
`2^31`: with `available() = -1` and `read_size = 2^31`, the cast
`(jint)read_size` wraps to `-2^31`, so the clamped size is not the
full request. -/
theorem input_stream_read_negative_avail_counterexample :
    (input_stream_read 0 (2 ^ 31) (-1) 0).sizeToCopy = -(2 ^ 31)
    ∧ (input_stream_read 0 (2 ^ 31) (-1) 0).sizeToCopy ≠ ((2 ^ 31 : Nat) : Int) := by
  refine ⟨by decide, ?_⟩
  intro h
  revert h
  decide

/-! ## Facts about the diagnostic loop -/

lemma ite_abs (v : ℚ) : (if 0 ≤ v then v else -v) = |v| := by
  by_cases h : 0 ≤ v
  · rw [if_pos h, abs_of_nonneg h]
  · rw [if_neg h, abs_of_neg (lt_of_not_ge h)]

lemma ite_min (m v : ℚ) : (if v < m then v else m) = min m v := by
  by_cases h : v < m
  · rw [if_pos h]
    exact (min_eq_right h.le).symm
  · rw [if_neg h]
    exact (min_eq_left (le_of_not_lt h)).symm

lemma ite_max (m v : ℚ) : (if m < v then v else m) = max m v := by
  by_cases h : m < v
  · rw [if_pos h]
    exact (max_eq_right h.le).symm
  · rw [if_neg h]
    exact (max_eq_left (le_of_not_lt h)).symm

lemma foldl_diagStep_sum_abs (l : List ℚ) (d : AudioDiag) :
    (l.foldl diagStep d).sum_abs = d.sum_abs + (l.map (fun v => |v|)).sum := by
  induction l generalizing d with
  | nil => simp
  | cons v t ih =>
      simp only [List.foldl_cons, List.map_cons, List.sum_cons, ih, diagStep, ite_abs]
      ring

lemma foldl_diagStep_non_zero (l : List ℚ) (d : AudioDiag) :
    (l.foldl diagStep d).non_zero = d.non_zero + (l.filter (fun v => v ≠ 0)).length := by
  induction l generalizing d with
  | nil => simp
  | cons v t ih =>
      simp only [List.foldl_cons, List.filter_cons, ih, diagStep]
      by_cases h : v = 0
      · simp [h]
      · simp [h]
        omega

lemma foldl_diagStep_min_val (l : List ℚ) (d : AudioDiag) :
    (l.foldl diagStep d).min_val = l.foldl min d.min_val := by
  induction l generalizing d with
  | nil => rfl
  | cons v t ih =>
      simp only [List.foldl_cons, ih, diagStep, ite_min]

lemma foldl_diagStep_max_val (l : List ℚ) (d : AudioDiag) :
    (l.foldl diagStep d).max_val = l.foldl max d.max_val := by
  induction l generalizing d with
  | nil => rfl
  | cons v t ih =>
      simp only [List.foldl_cons, ih, diagStep, ite_max]

lemma foldl_min_le_init (l : List ℚ) (a : ℚ) : l.foldl min a ≤ a := by
  induction l generalizing a with
  | nil => simp
  | cons v t ih =>
      simp only [List.foldl_cons]
      exact le_trans (ih (min a v)) (min_le_left a v)

lemma foldl_min_le_mem (l : List ℚ) (v : ℚ) : v ∈ l → ∀ a, l.foldl min a ≤ v := by
  induction l with
  | nil =>
      intro h
      cases h
  | cons w t ih =>
      intro h a
      simp only [List.foldl_cons]
      rcases List.mem_cons.mp h with h1 | h2
      · refine le_trans (foldl_min_le_init t (min a w)) ?_
        rw [h1]
        exact min_le_right a w
      · exact ih h2 (min a w)

lemma foldl_min_eq_init_or_mem (l : List ℚ) (a : ℚ) :
    l.foldl min a = a ∨ l.foldl min a ∈ l := by
  induction l generalizing a with
  | nil => exact Or.inl rfl
  | cons v t ih =>
      simp only [List.foldl_cons]
      rcases ih (min a v) with h | h
      · rw [h]
        rcases le_total a v with hav | hva
        · exact Or.inl (min_eq_left hav)
        · refine Or.inr ?_
          rw [min_eq_right hva]
          exact List.mem_cons_self v t
      · exact Or.inr (List.mem_cons_of_mem v h)

lemma init_le_foldl_max (l : List ℚ) (a : ℚ) : a ≤ l.foldl max a := by
  induction l generalizing a with
  | nil => simp
  | cons v t ih =>
      simp only [List.foldl_cons]
      exact le_trans (le_max_left a v) (ih (max a v))

lemma mem_le_foldl_max (l : List ℚ) (v : ℚ) : v ∈ l → ∀ a, v ≤ l.foldl max a := by
  induction l with
  | nil =>
      intro h
      cases h
  | cons w t ih =>
      intro h a
      simp only [List.foldl_cons]
      rcases List.mem_cons.mp h with h1 | h2
      · refine le_trans ?_ (init_le_foldl_max t (max a w))
        rw [h1]
        exact le_max_right a w
      · exact ih h2 (max a w)

lemma foldl_max_eq_init_or_mem (l : List ℚ) (a : ℚ) :
    l.foldl max a = a ∨ l.foldl max a ∈ l := by
  induction l generalizing a with
  | nil => exact Or.inl rfl
  | cons v t ih =>
      simp only [List.foldl_cons]
      rcases ih (max a v) with h | h
      · rw [h]
        rcases le_total a v with hav | hva
        · refine Or.inr ?_
          rw [max_eq_right hav]
          exact List.mem_cons_self v t
        · exact Or.inl (max_eq_left hva)
      · exact Or.inr (List.mem_cons_of_mem v h)

lemma audioDiagnostics_sum_abs (audio : List ℚ) :
    (audioDiagnostics audio).sum_abs = (audio.map (fun v => |v|)).sum := by
  unfold audioDiagnostics
  rw [foldl_diagStep_sum_abs]
  simp

lemma fullTranscribe_avgAbs (d : WhisperFullParams) (n : Int) (audio : List ℚ) :
    (fullTranscribe d n audio).avgAbs = meanAbsAmplitude audio := by
  show (audioDiagnostics audio).sum_abs / (audio.length : ℚ) = meanAbsAmplitude audio
  rw [audioDiagnostics_sum_abs]
  rfl

/-! ## Claims about the transcription request preparer -/

/-- C2: for every default block, thread-count hint and audio buffer,
the parameter set `fullTranscribe` builds has entropy threshold 2.8,
log-probability threshold -1.5, no-speech threshold 0.3, language
"en" and translate off, and the whole parameter set is independent of
the buffer's contents. -/
theorem fullTranscribe_tuned_params (d : WhisperFullParams) (n : Int)
    (a1 a2 : List ℚ) :
    (fullTranscribe d n a1).params.entropy_thold = 2.8
    ∧ (fullTranscribe d n a1).params.logprob_thold = -1.5
    ∧ (fullTranscribe d n a1).params.no_speech_thold = 0.3
    ∧ (fullTranscribe d n a1).params.language = "en"
    ∧ (fullTranscribe d n a1).params.translate = false
    ∧ (fullTranscribe d n a1).params = (fullTranscribe d n a2).params :=
  ⟨rfl, rfl, rfl, rfl, rfl, rfl⟩

/-- C3 (amended): `fullTranscribe` disables the engine's progress
printing (`print_progress = false`, and `print_realtime = false`), but
it enables the engine's timestamp printing: `print_timestamps` is set
to `true`, not `false`. -/
theorem fullTranscribe_print_flags (d : WhisperFullParams) (n : Int)
    (audio : List ℚ) :
    (fullTranscribe d n audio).params.print_progress = false
    ∧ (fullTranscribe d n audio).params.print_realtime = false
    ∧ (fullTranscribe d n audio).params.print_timestamps = true :=
  ⟨rfl, rfl, rfl⟩

/-- Counterexample to C3 as stated: at any concrete input the built
parameter set has `print_timestamps = true`, so the two print flags
are not both `false`. -/
theorem fullTranscribe_print_flags_counterexample :
    ¬ ((fullTranscribe defaultGreedyParams 4 [(0 : ℚ)]).params.print_progress = false
        ∧ (fullTranscribe defaultGreedyParams 4 [(0 : ℚ)]).params.print_timestamps
            = false) := by
  intro h
  exact absurd h.2 (by decide)

/-- C4: for every non-empty buffer, the likely-silent flag of
`fullTranscribe` fires exactly when the mean absolute amplitude is
below 0.001; in particular a buffer whose samples all lie within
±0.0005 is flagged and a buffer with mean absolute amplitude ≥ 0.01
is not; and the engine call happens whether or not the flag fired. -/
theorem fullTranscribe_silence_flag (d : WhisperFullParams) (n : Int)
    (audio : List ℚ) (h : audio ≠ []) :
    ((fullTranscribe d n audio).silentWarning = true
        ↔ meanAbsAmplitude audio < 1 / 1000)
    ∧ ((∀ v ∈ audio, |v| ≤ 1 / 2000)
        → (fullTranscribe d n audio).silentWarning = true)
    ∧ (1 / 100 ≤ meanAbsAmplitude audio
        → (fullTranscribe d n audio).silentWarning = false)
    ∧ (fullTranscribe d n audio).engineInvoked = true := by
  have hlen : 0 < (audio.length : ℚ) := by
    have := List.length_pos.mpr h
    exact_mod_cast this
  have hiff : (fullTranscribe d n audio).silentWarning = true
      ↔ meanAbsAmplitude audio < 1 / 1000 := by
    show decide ((audioDiagnostics audio).sum_abs / (audio.length : ℚ) < 1 / 1000)
        = true ↔ _
    rw [decide_eq_true_eq, audioDiagnostics_sum_abs]
    exact Iff.rfl
  refine ⟨hiff, ?_, ?_, rfl⟩
  · intro hamp
    rw [hiff]
    have hsum : (audio.map (fun v => |v|)).sum
        ≤ (audio.map (fun v => |v|)).length • ((1 : ℚ) / 2000) := by
      refine List.sum_le_card_nsmul _ _ ?_
      intro x hx
      rcases List.mem_map.mp hx with ⟨v, hv, hxv⟩
      exact hxv ▸ hamp v hv
    rw [List.length_map, nsmul_eq_mul] at hsum
    unfold meanAbsAmplitude
    rw [div_lt_iff₀ hlen]
    calc (audio.map (fun v => |v|)).sum
        ≤ (audio.length : ℚ) * (1 / 2000) := hsum
      _ < 1 / 1000 * (audio.length : ℚ) := by nlinarith
  · intro hge
    have : ¬ meanAbsAmplitude audio < 1 / 1000 := by
      intro hlt
      nlinarith
    rcases Bool.eq_false_or_eq_true (fullTranscribe d n audio).silentWarning with hb | hb
    · exact absurd (hiff.mp hb) this
    · exact hb

/-- Witness for C4: the one-sample buffer `[1]` is non-empty; its
mean absolute amplitude is 1, so it is not flagged, and the engine is
invoked. -/
theorem fullTranscribe_silence_flag_witness :
    ([(1 : ℚ)] ≠ [])
    ∧ (((fullTranscribe defaultGreedyParams 1 [(1 : ℚ)]).silentWarning = true
          ↔ meanAbsAmplitude [(1 : ℚ)] < 1 / 1000)
        ∧ ((∀ v ∈ [(1 : ℚ)], |v| ≤ 1 / 2000)
            → (fullTranscribe defaultGreedyParams 1 [(1 : ℚ)]).silentWarning = true)
        ∧ (1 / 100 ≤ meanAbsAmplitude [(1 : ℚ)]
            → (fullTranscribe defaultGreedyParams 1 [(1 : ℚ)]).silentWarning = false)
        ∧ (fullTranscribe defaultGreedyParams 1 [(1 : ℚ)]).engineInvoked = true) :=
  ⟨by decide, fullTranscribe_silence_flag defaultGreedyParams 1 [(1 : ℚ)] (by decide)⟩

/-- C5 (amended): for every non-empty buffer, the diagnostic summary
of `fullTranscribe` reports the mean absolute amplitude and the
fraction of non-zero samples exactly; but the reported extremes are
seeded with 0, so they are the minimum and maximum of the samples
*together with 0*: `min_val ≤ 0` and `max_val ≥ 0` always, each bounds
every sample, and each is either 0 or an actual sample value. -/
theorem fullTranscribe_diagnostics (d : WhisperFullParams) (n : Int)
    (audio : List ℚ) (h : audio ≠ []) :
    ((fullTranscribe d n audio).diag.min_val ≤ 0
      ∧ (∀ v ∈ audio, (fullTranscribe d n audio).diag.min_val ≤ v)
      ∧ ((fullTranscribe d n audio).diag.min_val = 0
          ∨ (fullTranscribe d n audio).diag.min_val ∈ audio))
    ∧ (0 ≤ (fullTranscribe d n audio).diag.max_val
      ∧ (∀ v ∈ audio, v ≤ (fullTranscribe d n audio).diag.max_val)
      ∧ ((fullTranscribe d n audio).diag.max_val = 0
          ∨ (fullTranscribe d n audio).diag.max_val ∈ audio))
    ∧ (fullTranscribe d n audio).avgAbs = meanAbsAmplitude audio
    ∧ ((fullTranscribe d n audio).diag.non_zero : ℚ) / (audio.length : ℚ)
        = nonZeroFraction audio := by
  have hmin : (fullTranscribe d n audio).diag.min_val = audio.foldl min 0 := by
    show (audioDiagnostics audio).min_val = _
    unfold audioDiagnostics
    rw [foldl_diagStep_min_val]
  have hmax : (fullTranscribe d n audio).diag.max_val = audio.foldl max 0 := by
    show (audioDiagnostics audio).max_val = _
    unfold audioDiagnostics
    rw [foldl_diagStep_max_val]
  have hnz : (fullTranscribe d n audio).diag.non_zero
      = (audio.filter (fun v => v ≠ 0)).length := by
    show (audioDiagnostics audio).non_zero = _
    unfold audioDiagnostics
    rw [foldl_diagStep_non_zero]
    simp
  refine ⟨⟨?_, ?_, ?_⟩, ⟨?_, ?_, ?_⟩, fullTranscribe_avgAbs d n audio, ?_⟩
  · rw [hmin]
    exact foldl_min_le_init audio 0
  · intro v hv
    rw [hmin]
    exact foldl_min_le_mem audio v hv 0
  · rw [hmin]
    exact foldl_min_eq_init_or_mem audio 0
  · rw [hmax]
    exact init_le_foldl_max audio 0
  · intro v hv
    rw [hmax]
    exact mem_le_foldl_max audio v hv 0
  · rw [hmax]
    exact foldl_max_eq_init_or_mem audio 0
  · rw [hnz]
    rfl

/-- Witness for C5: the theorem applied to the non-empty buffer
`[1, -2]`. -/
theorem fullTranscribe_diagnostics_witness :
    ([(1 : ℚ), -2] ≠ [])
    ∧ (((fullTranscribe defaultGreedyParams 1 [(1 : ℚ), -2]).diag.min_val ≤ 0
        ∧ (∀ v ∈ [(1 : ℚ), -2],
            (fullTranscribe defaultGreedyParams 1 [(1 : ℚ), -2]).diag.min_val ≤ v)
        ∧ ((fullTranscribe defaultGreedyParams 1 [(1 : ℚ), -2]).diag.min_val = 0
            ∨ (fullTranscribe defaultGreedyParams 1 [(1 : ℚ), -2]).diag.min_val
                ∈ [(1 : ℚ), -2]))
      ∧ (0 ≤ (fullTranscribe defaultGreedyParams 1 [(1 : ℚ), -2]).diag.max_val
        ∧ (∀ v ∈ [(1 : ℚ), -2],
            v ≤ (fullTranscribe defaultGreedyParams 1 [(1 : ℚ), -2]).diag.max_val)
        ∧ ((fullTranscribe defaultGreedyParams 1 [(1 : ℚ), -2]).diag.max_val = 0
            ∨ (fullTranscribe defaultGreedyParams 1 [(1 : ℚ), -2]).diag.max_val
                ∈ [(1 : ℚ), -2]))
      ∧ (fullTranscribe defaultGreedyParams 1 [(1 : ℚ), -2]).avgAbs
          = meanAbsAmplitude [(1 : ℚ), -2]
      ∧ ((fullTranscribe defaultGreedyParams 1 [(1 : ℚ), -2]).diag.non_zero : ℚ)
            / (([(1 : ℚ), -2].length : Nat) : ℚ)
          = nonZeroFraction [(1 : ℚ), -2]) :=
  ⟨by decide, fullTranscribe_diagnostics defaultGreedyParams 1 [(1 : ℚ), -2] (by decide)⟩

/-- Counterexample to C5 as stated: over the buffer `[1]` the
mathematical minimum sample value is 1, but the diagnostic summary
reports `min_val = 0` because the running minimum is seeded with 0. -/
theorem fullTranscribe_diagnostics_counterexample :
    (fullTranscribe defaultGreedyParams 1 [(1 : ℚ)]).diag.min_val = 0
    ∧ (fullTranscribe defaultGreedyParams 1 [(1 : ℚ)]).diag.min_val ≠ 1 := by
  constructor
  · decide
  · intro h
    exact absurd h (by decide)

/-- C8: the caller's audio sample array is unchanged when
`fullTranscribe` returns: the native copy is only read, and it is
released with `JNI_ABORT`, which discards it without writing back. -/
theorem fullTranscribe_audio_unchanged (d : WhisperFullParams) (n : Int)
    (audio : List ℚ) :
    (fullTranscribe d n audio).callerAudio = audio := rfl

/-! ## Claims about initialization and the eof callbacks -/

/-- C6: when the asset manager cannot be obtained or the asset path
cannot be opened, `initContextFromAsset` returns the null handle
sentinel 0 and the engine's initialize-from-loader entry point is
never invoked. -/
theorem initContextFromAsset_unopenable (env : AssetEnv)
    (h : env.managerOk = false ∨ env.assetOk = false) :
    (initContextFromAsset env).1 = 0 ∧ (initContextFromAsset env).2 = false := by
  have hfail : whisper_init_from_asset env = ⟨none, false⟩ := by
    unfold whisper_init_from_asset
    rcases h with h | h
    · rw [if_pos h]
    · by_cases hm : env.managerOk = false
      · rw [if_pos hm]
      · rw [if_neg hm, if_pos h]
  simp [initContextFromAsset, hfail, jlongOfContext]

/-- Witness for C6: a bad asset path (the manager resolved but the
asset did not open) yields handle 0 and no engine call, even though
the engine would have produced the non-null handle 7. -/
theorem initContextFromAsset_unopenable_witness :
    ((AssetEnv.mk true false (some 7)).managerOk = false
        ∨ (AssetEnv.mk true false (some 7)).assetOk = false)
    ∧ ((initContextFromAsset (AssetEnv.mk true false (some 7))).1 = 0
        ∧ (initContextFromAsset (AssetEnv.mk true false (some 7))).2 = false) :=
  ⟨Or.inr rfl, initContextFromAsset_unopenable (AssetEnv.mk true false (some 7)) (Or.inr rfl)⟩

lemma repeatStreamEof_spec (n : Nat) (s : StreamState) :
    repeatStreamEof n s = (List.replicate n (decide (s.available ≤ 0)), s) := by
  induction n with
  | zero => rfl
  | succ k ih =>
      show ((decide (s.available ≤ 0)) :: (repeatStreamEof k s).1,
        (repeatStreamEof k s).2) = _
      rw [ih]
      rfl

/-- C7: both eof callbacks are pure predicates of the origin's current
state: the Stream one answers `available() ≤ 0`, the Asset one answers
`remaining ≤ 0`, neither consumes data (the state is unchanged), and
any number of repeated Stream eof calls without an intervening read
all return the same value. -/
theorem eof_callbacks_pure (s : StreamState) (remaining : Int) (n : Nat) :
    (input_stream_eof s).2 = s
    ∧ ((input_stream_eof s).1 = true ↔ s.available ≤ 0)
    ∧ (asset_is_eof remaining).2 = remaining
    ∧ ((asset_is_eof remaining).1 = true ↔ remaining ≤ 0)
    ∧ (repeatStreamEof n s).2 = s
    ∧ (repeatStreamEof n s).1 = List.replicate n (decide (s.available ≤ 0)) := by
  refine ⟨rfl, by simp [input_stream_eof], rfl, by simp [asset_is_eof], ?_, ?_⟩
  · rw [repeatStreamEof_spec]
  · rw [repeatStreamEof_spec]

end WhisperJNI
